import Mathlib

/-!
Verification development for the password-manager repository: the vault-key
envelope and field cipher (specified contracts of the Rust backend, which is
not part of the shipped source tree), the SQLite schema's cascade semantics
(`App.tsx` schema appendix), and the React UI flows (`Auth.tsx`,
`Dashboard.tsx`, `App.tsx`).

JavaScript/Rust strings are modelled as Lean `String`/`List Char`; byte
sequences as `List Nat`.  Randomness (nonces, generated keys, salts) is made
explicit as parameters and theorems quantify over it.
-/

namespace PasswordManager

/-- Byte sequences (Rust `Vec<u8>`, SQLite BLOBs) modelled as lists of
naturals. -/
abbrev Bytes := List Nat

/-! ## Field cipher and vault-key envelope

The Rust crypto backend (argon2 + age per the README) is not in the source
tree; the definitions below are modelled from the spec's contracts
(§4.2–§4.4). -/

/-- Modelled from the spec: a keystream byte derived deterministically from
the key and the nonce (stands in for the missing Rust stream cipher; any
fixed derivation supports the round-trip and integrity contracts). -/
def pad (key : Bytes) (nonce : Nat) : Nat :=
  key.foldl (fun a b => a + 2 * b + 1) nonce

/-- Modelled from the spec (§4.4, §6): the authenticated ciphertext blob
`nonce ∥ ciphertext ∥ tag` produced by the missing Rust field cipher.  The
authentication tag is modelled as a value that authenticates exactly the
(key, nonce, ciphertext) triple — the idealized guarantee §4.4/§8 assert
(any wrong-key or tampered decryption is detected). -/
structure Blob where
  nonce : Nat
  ct : Bytes
  tag : Bytes × Nat × Bytes
  deriving DecidableEq, Repr

/-- Modelled from the spec (§4.4 `encrypt_field`): authenticated encryption
of one field under the vault key with an explicit fresh nonce. -/
def encrypt_field (key : Bytes) (nonce : Nat) (pt : Bytes) : Blob :=
  let ct := pt.map (fun b => pad key nonce ^^^ b)
  { nonce := nonce, ct := ct, tag := (key, nonce, ct) }

/-- Modelled from the spec (§4.4 `decrypt_field`): verify the authentication
tag, then invert the keystream; tag mismatch yields `none` (AuthError). -/
def decrypt_field (key : Bytes) (b : Blob) : Option Bytes :=
  if b.tag = (key, b.nonce, b.ct) then
    some (b.ct.map (fun x => pad key b.nonce ^^^ x))
  else
    none

/-- Modelled from the spec (§4.2 `derive`): the KDF for the wrapping key,
deterministic and salted; modelled so that distinct passphrases under the
same salt give distinct keys (the idealized collision-freeness the spec's
integrity property relies on). -/
def derive (passphrase salt : Bytes) : Bytes :=
  passphrase.length :: (passphrase ++ salt)

/-- Modelled from the spec (§4.3 `create_vault`): wrap a freshly generated
vault key under the KDF output; key, salt and nonce are explicit
parameters standing for the missing generator's random draws. -/
def create_vault (passphrase vault_key salt : Bytes) (nonce : Nat) : Blob × Bytes :=
  (encrypt_field (derive passphrase salt) nonce vault_key, salt)

/-- Modelled from the spec (§4.3 `unwrap_vault`): re-derive the wrapping key
and attempt authenticated decryption. -/
def unwrap_vault (passphrase : Bytes) (vault_key_cipher : Blob) (wrap_salt : Bytes) :
    Option Bytes :=
  decrypt_field (derive passphrase wrap_salt) vault_key_cipher

lemma xor_xor_cancel (a b : Nat) : a ^^^ (a ^^^ b) = b := by
  rw [← Nat.xor_assoc, Nat.xor_self, Nat.zero_xor]

lemma derive_inj {p₁ p₂ s : Bytes} (h : derive p₁ s = derive p₂ s) : p₁ = p₂ := by
  unfold derive at h
  have hlen : p₁.length = p₂.length := (List.cons.injEq _ _ _ _ ▸ h).1
  have happ : p₁ ++ s = p₂ ++ s := (List.cons.injEq _ _ _ _ ▸ h).2
  exact (List.append_inj happ hlen).1

/-- C3: for every vault key `K`, nonce and plaintext `P` (the empty string
included), `decrypt_field K (encrypt_field K P) = P`. -/
theorem c3_field_cipher_round_trip (key : Bytes) (nonce : Nat) (pt : Bytes) :
    decrypt_field key (encrypt_field key nonce pt) = some pt := by
  unfold decrypt_field encrypt_field
  simp [List.map_map, Function.comp_def, xor_xor_cancel]

/-- C4: decrypting a field blob under any key other than the one it was
encrypted with, and unwrapping a vault-key cipher with any passphrase other
than the one it was wrapped under, fail with an authentication error
(`none`) and never return plaintext. -/
theorem c4_wrong_key_fails_closed :
    (∀ (k k' : Bytes) (nonce : Nat) (pt : Bytes), k' ≠ k →
      decrypt_field k' (encrypt_field k nonce pt) = none) ∧
    (∀ (pw pw' vault_key salt : Bytes) (nonce : Nat), pw' ≠ pw →
      unwrap_vault pw' (create_vault pw vault_key salt nonce).1 salt = none) := by
  constructor
  · intro k k' nonce pt hne
    unfold decrypt_field encrypt_field
    simp only []
    rw [if_neg]
    intro hcontra
    exact hne (congrArg (fun t => t.1) hcontra).symm
  · intro pw pw' vault_key salt nonce hne
    unfold unwrap_vault create_vault
    unfold decrypt_field encrypt_field
    simp only []
    rw [if_neg]
    intro hcontra
    exact hne (derive_inj (congrArg (fun t => t.1) hcontra)).symm

/-- Witness for C4 at concrete inputs. -/
theorem c4_wrong_key_fails_closed_witness :
    ([2] : Bytes) ≠ [1] ∧ ([9, 9] : Bytes) ≠ [8] ∧
    decrypt_field [2] (encrypt_field [1] 7 [3, 4]) = none ∧
    unwrap_vault [9, 9] (create_vault [8] [5, 6] [0] 3).1 [0] = none :=
  ⟨by decide, by decide,
   c4_wrong_key_fails_closed.1 [1] [2] 7 [3, 4] (by decide),
   c4_wrong_key_fails_closed.2 [8] [9, 9] [5, 6] [0] 3 (by decide)⟩

/-! ## JavaScript string helpers

Models of the JS string operations the UI uses: `String.prototype.trim`,
`String.prototype.toLowerCase`, `String.prototype.includes`. -/

/-- Model of the JS whitespace class used by `trim`. -/
def isJsSpace (c : Char) : Bool := c.isWhitespace

/-- Model of `String.prototype.trim` on the character list. -/
def trimChars (s : List Char) : List Char :=
  ((s.dropWhile isJsSpace).reverse.dropWhile isJsSpace).reverse

/-- Model of `String.prototype.toLowerCase`. -/
def lowerChars (s : List Char) : List Char := s.map Char.toLower

/-- Helper for `occursIn`: does `need` occur at the head of `hay`? -/
def startsWithChars : List Char → List Char → Bool
  | [], _ => true
  | _ :: _, [] => false
  | n :: ns, h :: hs => n == h && startsWithChars ns hs

/-- Model of `hay.includes(need)` for JS strings. -/
def occursIn (need : List Char) : List Char → Bool
  | [] => need.isEmpty
  | h :: t => startsWithChars need (h :: t) || occursIn need t

lemma startsWithChars_self_append (n b : List Char) :
    startsWithChars n (n ++ b) = true := by
  induction n with
  | nil => rfl
  | cons c cs ih => simp [startsWithChars, ih]

lemma occursIn_of_startsWithChars {n l : List Char}
    (h : startsWithChars n l = true) : occursIn n l = true := by
  cases l with
  | nil =>
    cases n with
    | nil => rfl
    | cons c cs => simp [startsWithChars] at h
  | cons x xs => simp [occursIn, h]

lemma occursIn_append_drop (n x t : List Char) (h : occursIn n t = true) :
    occursIn n (x ++ t) = true := by
  induction x with
  | nil => simpa using h
  | cons c cs ih => simp [occursIn, ih]

lemma occursIn_self_append (n b : List Char) : occursIn n (n ++ b) = true :=
  occursIn_of_startsWithChars (startsWithChars_self_append n b)

/-! ## The Session DTO and its persistence by the UI

`Dashboard.tsx` declares the shape of the value the Tauri backend returns
from `login_user` (interface `SessionDTO`): it carries the raw vault key and
the login passphrase.  `Auth.tsx` persists `JSON.stringify(session)` under
the `localStorage` key `"session"`. -/

/-- The `SessionDTO` interface of `Dashboard.tsx` (the login result as typed
by the UI): `username`, `vault_id`, `vault_key`, `passphrase`. -/
structure SessionDTO where
  username : String
  vault_id : String
  vault_key : String
  passphrase : String
  deriving DecidableEq, Repr

/-- Characters that `JSON.stringify` emits verbatim inside a string value
(no escape needed). -/
def plainJsonChar (c : Char) : Bool :=
  !(c == '"') && !(c == '\\') && decide (32 ≤ c.toNat)

/-- One character of a JSON string value, with the escapes relevant to the
quote and backslash (control-character escapes are not modelled; all
theorems that depend on escaping assume `plainJsonChar`). -/
def jsonEscapeChar (c : Char) : List Char :=
  if c = '"' then ['\\', '"']
  else if c = '\\' then ['\\', '\\']
  else [c]

/-- JSON escaping of a whole string value. -/
def jsonEscapeList : List Char → List Char
  | [] => []
  | c :: cs => jsonEscapeChar c ++ jsonEscapeList cs

/-- A JSON-quoted string value. -/
def jsonQuote (s : String) : List Char :=
  ['"'] ++ jsonEscapeList s.toList ++ ['"']

/-- Model of `JSON.stringify(session)` as executed by `Auth.tsx` on the
login result, with the field order of the `SessionDTO` interface. -/
def stringifySession (s : SessionDTO) : List Char :=
  "\x7b\"username\":".toList ++ jsonQuote s.username
    ++ ",\"vault_id\":".toList ++ jsonQuote s.vault_id
    ++ ",\"vault_key\":".toList ++ jsonQuote s.vault_key
    ++ ",\"passphrase\":".toList ++ jsonQuote s.passphrase
    ++ "\x7d".toList

lemma jsonEscapeList_plain {s : List Char}
    (h : ∀ c ∈ s, plainJsonChar c = true) : jsonEscapeList s = s := by
  induction s with
  | nil => rfl
  | cons c cs ih =>
    have hc := h c (List.mem_cons_self c cs)
    have hq : ¬(c = '"') := by
      intro hcq; subst hcq; simp [plainJsonChar] at hc
    have hb : ¬(c = '\\') := by
      intro hcb; subst hcb; simp [plainJsonChar] at hc
    simp [jsonEscapeList, jsonEscapeChar, hq, hb,
      ih (fun d hd => h d (List.mem_cons_of_mem c hd))]

/-! ## The authentication form (`Auth.tsx` `handleSubmit`)

The submit handler validates the form, then invokes the backend command
(`register_user` / `login_user`); on a successful login it writes
`JSON.stringify(session)` to `localStorage` and navigates to the dashboard.
The backend results are explicit parameters. -/

/-- The two tabs of `Auth.tsx`. -/
inductive AuthMode
  | login
  | register
  deriving DecidableEq, Repr

/-- Outcome of one submission of the authentication form: a validation
error (backend untouched), a register result, or a login result; a
successful login records the exact string written to `localStorage`. -/
inductive SubmitOutcome
  | validationError (msg : String)
  | registerOk
  | registerFailed (msg : String)
  | loginOk (storedSession : List Char)
  | loginFailed (msg : String)
  deriving DecidableEq, Repr

/-- Model of `handleSubmit` in `Auth.tsx`: the three validation gates (in
source order), then the backend call selected by the mode. -/
def handleSubmit (mode : AuthMode) (user pass confirm : String)
    (registerBackend : Except String Unit)
    (loginBackend : Except String SessionDTO) : SubmitOutcome :=
  if (trimChars user.toList).length < 3 then
    .validationError "O nome de usuário deve ter pelo menos 3 caracteres."
  else if pass.length < 6 then
    .validationError "A senha deve ter pelo menos 6 caracteres."
  else if mode = .register ∧ pass ≠ confirm then
    .validationError "As senhas não coincidem."
  else
    match mode with
    | .register =>
      match registerBackend with
      | .ok _ => .registerOk
      | .error e => .registerFailed e
    | .login =>
      match loginBackend with
      | .ok session => .loginOk (stringifySession session)
      | .error e => .loginFailed e

/-- The disjunction of the three client-side validation failures of
`Auth.tsx`. -/
def failsValidation (mode : AuthMode) (user pass confirm : String) : Prop :=
  (trimChars user.toList).length < 3 ∨ pass.length < 6 ∨
    (mode = .register ∧ pass ≠ confirm)

instance (mode : AuthMode) (user pass confirm : String) :
    Decidable (failsValidation mode user pass confirm) := by
  unfold failsValidation; infer_instance

/-- Does the submit outcome correspond to a backend command having been
invoked? -/
def reachesBackend : SubmitOutcome → Bool
  | .validationError _ => false
  | _ => true

/-- C9: a submission failing any of the three client-side checks produces a
validation error and never invokes a backend command (the outcome is
independent of the backend), and a submission reaches the backend exactly
when all three checks pass. -/
theorem c9_form_validation_gates_backend (mode : AuthMode)
    (user pass confirm : String) (rb : Except String Unit)
    (lb : Except String SessionDTO) :
    (failsValidation mode user pass confirm →
      (∃ msg, handleSubmit mode user pass confirm rb lb = .validationError msg) ∧
      ∀ (rb' : Except String Unit) (lb' : Except String SessionDTO),
        handleSubmit mode user pass confirm rb' lb' =
          handleSubmit mode user pass confirm rb lb) ∧
    (reachesBackend (handleSubmit mode user pass confirm rb lb) = true ↔
      ¬ failsValidation mode user pass confirm) := by
  by_cases h1 : (trimChars user.data).length < 3
  · have hout : handleSubmit mode user pass confirm rb lb =
        .validationError "O nome de usuário deve ter pelo menos 3 caracteres." := by
      simp [handleSubmit, h1]
    refine ⟨fun _ => ⟨⟨_, hout⟩, fun rb' lb' => by simp [handleSubmit, h1]⟩, ?_⟩
    rw [hout]
    exact iff_of_false (by simp [reachesBackend]) (not_not_intro (Or.inl h1))
  · by_cases h2 : pass.length < 6
    · have hout : handleSubmit mode user pass confirm rb lb =
          .validationError "A senha deve ter pelo menos 6 caracteres." := by
        simp [handleSubmit, h1, h2]
      refine ⟨fun _ => ⟨⟨_, hout⟩, fun rb' lb' => by simp [handleSubmit, h1, h2]⟩, ?_⟩
      rw [hout]
      exact iff_of_false (by simp [reachesBackend])
        (not_not_intro (Or.inr (Or.inl h2)))
    · by_cases h3 : mode = .register ∧ pass ≠ confirm
      · have hout : handleSubmit mode user pass confirm rb lb =
            .validationError "As senhas não coincidem." := by
          simp [handleSubmit, h1, h2, h3]
        refine ⟨fun _ => ⟨⟨_, hout⟩,
          fun rb' lb' => by simp [handleSubmit, h1, h2, h3]⟩, ?_⟩
        rw [hout]
        exact iff_of_false (by simp [reachesBackend])
          (not_not_intro (Or.inr (Or.inr h3)))
      · have hnf : ¬ failsValidation mode user pass confirm := by
          unfold failsValidation
          push_neg
          push_neg at h3
          exact ⟨le_of_not_lt h1, le_of_not_lt h2, h3⟩
        refine ⟨fun hf => absurd hf hnf, ?_⟩
        have hreach :
            reachesBackend (handleSubmit mode user pass confirm rb lb) = true := by
          cases mode with
          | register =>
            have hpc : pass = confirm := by
              by_contra hne
              exact h3 ⟨rfl, hne⟩
            subst hpc
            cases rb with
            | ok u => simp [handleSubmit, h1, h2, reachesBackend]
            | error e => simp [handleSubmit, h1, h2, reachesBackend]
          | login =>
            cases lb with
            | ok s => simp [handleSubmit, h1, h2, h3, reachesBackend]
            | error e => simp [handleSubmit, h1, h2, h3, reachesBackend]
        exact iff_of_true hreach hnf

/-- Witness for C9: a too-short username is stopped before the backend, and
a valid login submission reaches the backend. -/
theorem c9_form_validation_gates_backend_witness :
    (∃ msg, handleSubmit .register "ab" "123456" "123456" (.ok ()) (.error "x")
      = .validationError msg) ∧
    reachesBackend (handleSubmit .login "alice" "123456" "" (.ok ())
      (.ok ⟨"alice", "v", "K", "p"⟩)) = true :=
  ⟨((c9_form_validation_gates_backend .register "ab" "123456" "123456"
      (.ok ()) (.error "x")).1 (by decide)).1,
   (c9_form_validation_gates_backend .login "alice" "123456" "" (.ok ())
      (.ok ⟨"alice", "v", "K", "p"⟩)).2.mpr (by decide)⟩

/-- C1: at a successful login the UI writes `JSON.stringify(session)` to
`localStorage` (durable storage, surviving process exit), and that stored
string contains the plaintext vault key and the login passphrase — so the
unwrapped vault key does persist outside process memory, contradicting the
claimed invariant.  This evaluates `Auth.tsx`'s `handleSubmit` at the
failing input. -/
theorem c1_login_persists_plaintext_vault_key :
    handleSubmit .login "alice" "hunter22" "" (.ok ())
        (.ok ⟨"alice", "vault-1", "RAWVAULTKEY0123", "hunter22"⟩)
      = .loginOk (stringifySession ⟨"alice", "vault-1", "RAWVAULTKEY0123", "hunter22"⟩) ∧
    occursIn "RAWVAULTKEY0123".toList
        (stringifySession ⟨"alice", "vault-1", "RAWVAULTKEY0123", "hunter22"⟩) = true ∧
    occursIn "hunter22".toList
        (stringifySession ⟨"alice", "vault-1", "RAWVAULTKEY0123", "hunter22"⟩) = true :=
  ⟨by decide, by decide, by decide⟩

/-- C2 counterexample: the claim says the Session returned to the UI never
contains the raw vault key; but the serialized Session the UI receives and
stores contains the vault key verbatim at a concrete login result. -/
theorem c2_counterexample_session_contains_raw_key :
    occursIn "RAWKEY123".toList
      (stringifySession ⟨"alice", "v1", "RAWKEY123", "pw"⟩) = true := by
  decide

/-- C2 amended: the Session value that `login_user` returns to the UI layer
includes the raw vault key (and the passphrase): for every session whose
vault-key string needs no JSON escaping, the serialization the UI handles
contains the key verbatim. -/
theorem c2_amended_session_includes_raw_key (s : SessionDTO)
    (h : ∀ c ∈ s.vault_key.toList, plainJsonChar c = true) :
    occursIn s.vault_key.toList (stringifySession s) = true := by
  have he : jsonEscapeList s.vault_key.toList = s.vault_key.toList :=
    jsonEscapeList_plain h
  unfold stringifySession jsonQuote
  rw [he]
  simp only [List.append_assoc]
  apply occursIn_append_drop
  apply occursIn_append_drop
  apply occursIn_append_drop
  apply occursIn_append_drop
  apply occursIn_append_drop
  apply occursIn_append_drop
  apply occursIn_append_drop
  apply occursIn_append_drop
  apply occursIn_append_drop
  apply occursIn_append_drop
  exact occursIn_self_append _ _

/-- Witness for the amended C2 at a concrete session. -/
theorem c2_amended_session_includes_raw_key_witness :
    occursIn "K7".toList (stringifySession ⟨"u", "v", "K7", "p"⟩) = true :=
  c2_amended_session_includes_raw_key ⟨"u", "v", "K7", "p"⟩ (by decide)

/-! ## Persisted state (the SQLite schema appended to `App.tsx`)

Three tables with `ON DELETE CASCADE` foreign keys:
`user`, `vault (user_id -> user.id)`, `credential (vault_id -> vault.id)`.
BLOB primary keys (UUIDs) are modelled as naturals; timestamps as
strings. -/

/-- A row of the `user` table. -/
structure UserRow where
  id : Nat
  username : String
  password_hash : Bytes
  created_at : String
  updated_at : String
  deriving DecidableEq, Repr

/-- A row of the `vault` table; `vault_key_cipher` is the wrapped vault key
together with its embedded wrap salt (§4.3: the salt is retrievable from
the stored blob). -/
structure VaultRow where
  id : Nat
  user_id : Nat
  vault_key_cipher : Blob × Bytes
  created_at : String
  updated_at : String
  deriving DecidableEq, Repr

/-- A row of the `credential` table: `name`, optional plaintext `username`
and `url`, optional authenticated ciphertexts `notes` and
`password_cipher`. -/
structure CredRow where
  id : Nat
  vault_id : Nat
  name : String
  username : Option String
  url : Option String
  notes : Option Blob
  password_cipher : Option Blob
  created_at : String
  updated_at : String
  deriving DecidableEq, Repr

/-- The persisted database state. -/
structure DB where
  users : List UserRow
  vaults : List VaultRow
  credentials : List CredRow
  deriving DecidableEq, Repr

/-- Referential integrity of the schema's two foreign keys: no credential
without its vault, no vault without its user. -/
def noOrphans (db : DB) : Prop :=
  (∀ c ∈ db.credentials, ∃ v ∈ db.vaults, v.id = c.vault_id) ∧
  (∀ v ∈ db.vaults, ∃ u ∈ db.users, u.id = v.user_id)

instance (db : DB) : Decidable (noOrphans db) := by
  unfold noOrphans; infer_instance

/-- Modelled from the spec (§4.6 `delete`; the Rust command handler is not
in the source tree): `DELETE FROM credential WHERE id = ?` removes exactly
that row. -/
def delete_credential (db : DB) (cid : Nat) : DB :=
  { db with credentials := db.credentials.filter (fun c => !(c.id == cid)) }

/-- Modelled from the spec and the schema's `ON DELETE CASCADE` on
`credential.vault_id`: deleting a vault also removes all its
credentials. -/
def delete_vault (db : DB) (vid : Nat) : DB :=
  { db with
    vaults := db.vaults.filter (fun v => !(v.id == vid)),
    credentials := db.credentials.filter (fun c => !(c.vault_id == vid)) }

/-- Modelled from the spec and the schema's cascades: deleting a user
removes the user's vaults and, transitively, every credential of those
vaults. -/
def delete_user (db : DB) (uid : Nat) : DB :=
  { users := db.users.filter (fun u => !(u.id == uid)),
    vaults := db.vaults.filter (fun v => !(v.user_id == uid)),
    credentials := db.credentials.filter (fun c =>
      !(db.vaults.any (fun v => v.user_id == uid && v.id == c.vault_id))) }

/-- C8: deleting a credential removes exactly that row (all tables else
unchanged); deleting a vault removes it and exactly the credentials
belonging to it; deleting a user removes exactly that user's vaults; and
all three deletes preserve referential integrity, so no orphan vault or
credential row remains. -/
theorem c8_cascading_deletes (db : DB) (cid vid uid : Nat) :
    (∀ c, c ∈ (delete_credential db cid).credentials ↔
      c ∈ db.credentials ∧ c.id ≠ cid) ∧
    ((delete_credential db cid).vaults = db.vaults ∧
      (delete_credential db cid).users = db.users) ∧
    (∀ c, c ∈ (delete_vault db vid).credentials ↔
      c ∈ db.credentials ∧ c.vault_id ≠ vid) ∧
    (∀ v, v ∈ (delete_vault db vid).vaults ↔ v ∈ db.vaults ∧ v.id ≠ vid) ∧
    (∀ v, v ∈ (delete_user db uid).vaults ↔
      v ∈ db.vaults ∧ v.user_id ≠ uid) ∧
    (∀ u, u ∈ (delete_user db uid).users ↔ u ∈ db.users ∧ u.id ≠ uid) ∧
    (noOrphans db → noOrphans (delete_credential db cid) ∧
      noOrphans (delete_vault db vid) ∧ noOrphans (delete_user db uid)) := by
  refine ⟨?_, ⟨rfl, rfl⟩, ?_, ?_, ?_, ?_, ?_⟩
  · intro c; simp [delete_credential, List.mem_filter]
  · intro c; simp [delete_vault, List.mem_filter]
  · intro v; simp [delete_vault, List.mem_filter]
  · intro v; simp [delete_user, List.mem_filter]
  · intro u; simp [delete_user, List.mem_filter]
  · rintro ⟨hcred, hvault⟩
    refine ⟨⟨?_, ?_⟩, ⟨?_, ?_⟩, ⟨?_, ?_⟩⟩
    · intro c hc
      have hc' : c ∈ db.credentials := by
        simp [delete_credential, List.mem_filter] at hc
        exact hc.1
      exact hcred c hc'
    · intro v hv
      exact hvault v hv
    · intro c hc
      simp [delete_vault, List.mem_filter] at hc ⊢
      obtain ⟨hcm, hcv⟩ := hc
      obtain ⟨v, hv, hvid⟩ := hcred c hcm
      exact ⟨v, ⟨hv, fun h => hcv (hvid ▸ h)⟩, hvid⟩
    · intro v hv
      simp [delete_vault, List.mem_filter] at hv
      exact hvault v hv.1
    · intro c hc
      simp [delete_user, List.mem_filter] at hc ⊢
      obtain ⟨hcm, hall⟩ := hc
      obtain ⟨v, hv, hvid⟩ := hcred c hcm
      exact ⟨v, ⟨hv, fun h => hall v hv h hvid⟩, hvid⟩
    · intro v hv
      simp [delete_user, List.mem_filter] at hv ⊢
      obtain ⟨hvm, hvu⟩ := hv
      obtain ⟨u, hu, huid⟩ := hvault v hvm
      exact ⟨u, ⟨hu, fun h => hvu (huid ▸ h)⟩, huid⟩

/-- Witness for C8 on a concrete well-formed database. -/
theorem c8_cascading_deletes_witness :
    noOrphans
      ⟨[⟨1, "alice", [0], "t", "t"⟩],
       [⟨10, 1, (⟨0, [], ([], 0, [])⟩, []), "t", "t"⟩],
       [⟨100, 10, "GitHub", some "a", none, none, none, "t", "t"⟩]⟩ ∧
    noOrphans (delete_user
      ⟨[⟨1, "alice", [0], "t", "t"⟩],
       [⟨10, 1, (⟨0, [], ([], 0, [])⟩, []), "t", "t"⟩],
       [⟨100, 10, "GitHub", some "a", none, none, none, "t", "t"⟩]⟩ 1) :=
  ⟨by decide,
   ((c8_cascading_deletes
      ⟨[⟨1, "alice", [0], "t", "t"⟩],
       [⟨10, 1, (⟨0, [], ([], 0, [])⟩, []), "t", "t"⟩],
       [⟨100, 10, "GitHub", some "a", none, none, none, "t", "t"⟩]⟩
      100 10 1).2.2.2.2.2.2 (by decide)).2.2⟩

/-! ## Listing credentials (`list_credentials` and the UI summary type) -/

/-- The `Credential` interface of `Dashboard.tsx`: the summary the UI
receives from `list_credentials` — only `id`, `name`, `username?`, `url?`
and `updated_at`; no ciphertext and no secret field. -/
structure CredentialSummary where
  id : Nat
  name : String
  username : Option String
  url : Option String
  updated_at : String
  deriving DecidableEq, Repr

/-- Projection of a credential row to its non-secret summary. -/
def toSummary (c : CredRow) : CredentialSummary :=
  ⟨c.id, c.name, c.username, c.url, c.updated_at⟩

/-- Modelled from the spec (§4.6 `list`; the Rust command handler is not in
the source tree): return the summaries of the credentials of the session's
vault. -/
def list_credentials (db : DB) (vaultId : Nat) : List CredentialSummary :=
  (db.credentials.filter (fun c => c.vault_id == vaultId)).map toSummary

/-- Rewrite every credential row's secret ciphertext fields (`notes`,
`password_cipher`) with arbitrary functions, leaving everything else
untouched. -/
def mapSecrets (f g : CredRow → Option Blob) (db : DB) : DB :=
  { db with credentials := db.credentials.map (fun c =>
      { c with notes := f c, password_cipher := g c }) }

lemma list_credentials_mapSecrets_aux (f g : CredRow → Option Blob)
    (l : List CredRow) (vid : Nat) :
    ((l.map fun c => { c with notes := f c, password_cipher := g c }).filter
        (fun c => c.vault_id == vid)).map toSummary
      = (l.filter (fun c => c.vault_id == vid)).map toSummary := by
  induction l with
  | nil => rfl
  | cons c t ih =>
    by_cases h : c.vault_id == vid
    · simp [List.filter, h, toSummary, ih]
    · simp [List.filter, h, ih]

/-- C7: every summary `list` returns is the non-secret projection of a row
of the session's vault (and conversely), and the output is unchanged under
arbitrary rewriting of the stored `password_cipher`/`notes` ciphertexts —
`list` neither decrypts nor depends on nor returns the secret fields. -/
theorem c7_list_returns_only_nonsecret_fields (db : DB) (vid : Nat) :
    (∀ s, s ∈ list_credentials db vid ↔
      ∃ c, c ∈ db.credentials ∧ c.vault_id = vid ∧ s = toSummary c) ∧
    (∀ f g, list_credentials (mapSecrets f g db) vid =
      list_credentials db vid) := by
  constructor
  · intro s
    simp only [list_credentials, List.mem_map, List.mem_filter, beq_iff_eq]
    constructor
    · rintro ⟨c, ⟨hm, hv⟩, hs⟩
      exact ⟨c, hm, hv, hs.symm⟩
    · rintro ⟨c, hm, hv, hs⟩
      exact ⟨c, ⟨hm, hv⟩, hs.symm⟩
  · intro f g
    unfold list_credentials mapSecrets
    exact list_credentials_mapSecrets_aux f g db.credentials vid

/-! ## Creating and updating credentials (`Dashboard.tsx` `handleSave`)

`handleSave` builds the payload with JavaScript's `||` operator:
`username: username || null` etc., which maps the empty string to `null`
before the backend command is invoked. -/

/-- Model of the JS expression `s || null` for a string `s`: the empty
string (the only falsy string) becomes `null`. -/
def jsOrNull (s : String) : Option String :=
  if s = "" then none else some s

/-- The payload `handleSave` passes to `create_credential` /
`update_credential`. -/
structure SavePayload where
  name : String
  username : Option String
  url : Option String
  password : Option String
  notes : Option String
  deriving DecidableEq, Repr

/-- Model of `handleSave`'s payload construction in `Dashboard.tsx`. -/
def handleSavePayload (name username url password notes : String) :
    SavePayload :=
  ⟨name, jsOrNull username, jsOrNull url, jsOrNull password, jsOrNull notes⟩

/-- The Session of §3/§4.5 as held by the backend: vault id, vault-key
bytes, transient passphrase bytes. -/
structure Session where
  username : String
  vault_id : Nat
  vault_key : Bytes
  passphrase : Bytes
  deriving DecidableEq, Repr

/-- Bytes of a string (UTF-32 code points; stands for the UTF-8 bytes the
backend would encrypt). -/
def strBytes (s : String) : Bytes := s.toList.map Char.toNat

/-- Modelled from the spec (§4.6 `create`; the Rust command handler is not
in the source tree): encrypt the present secret fields under the session's
vault key with fresh explicit nonces, keep absent fields absent, persist
plaintext-searchable fields verbatim. -/
def create_credential (s : Session) (cid noncePw nonceNotes : Nat)
    (now : String) (p : SavePayload) : CredRow :=
  { id := cid, vault_id := s.vault_id, name := p.name,
    username := p.username, url := p.url,
    notes := p.notes.map (fun v => encrypt_field s.vault_key nonceNotes (strBytes v)),
    password_cipher := p.password.map (fun v =>
      encrypt_field s.vault_key noncePw (strBytes v)),
    created_at := now, updated_at := now }

/-- The end-to-end create as the GUI performs it: `handleSave`'s payload
fed to the backend's `create_credential`. -/
def uiCreate (s : Session) (cid noncePw nonceNotes : Nat) (now : String)
    (name username url password notes : String) : CredRow :=
  create_credential s cid noncePw nonceNotes now
    (handleSavePayload name username url password notes)

/-- C5 counterexample: an explicitly empty password (or notes) string
supplied to the UI's save handler is collapsed to `null` by `||` and stored
as the absent state, not encrypted — refuting the claim that the empty
string is encrypted like any other value and stays distinct from
absence. -/
theorem c5_counterexample_empty_string_collapsed :
    (handleSavePayload "GitHub" "alice" "https://g.com" "" "").password = none ∧
    (uiCreate ⟨"alice", 1, [1, 2], [9]⟩ 100 5 6 "t0"
      "GitHub" "alice" "https://g.com" "" "").password_cipher = none ∧
    (uiCreate ⟨"alice", 1, [1, 2], [9]⟩ 100 5 6 "t0"
      "GitHub" "alice" "https://g.com" "" "").notes = none := by
  refine ⟨rfl, rfl, rfl⟩

/-- C5 amended: through the UI's create, an absent optional field is stored
absent and unencrypted, but an explicitly empty string is likewise mapped
to the absent state by `handleSave`'s `||`-to-`null` conversion (absence
and the empty string are collapsed at the UI boundary); any non-empty value
is encrypted under the session's vault key and stored present. -/
theorem c5_amended_ui_collapses_empty_optionals (s : Session)
    (cid noncePw nonceNotes : Nat) (now : String)
    (name username url password notes : String) :
    (handleSavePayload name username url password notes).password
      = (if password = "" then none else some password) ∧
    (uiCreate s cid noncePw nonceNotes now
        name username url password notes).password_cipher
      = (if password = "" then none
         else some (encrypt_field s.vault_key noncePw (strBytes password))) ∧
    (uiCreate s cid noncePw nonceNotes now name username url password notes).notes
      = (if notes = "" then none
         else some (encrypt_field s.vault_key nonceNotes (strBytes notes))) ∧
    (uiCreate s cid noncePw nonceNotes now name username url password notes).username
      = (if username = "" then none else some username) := by
  by_cases hp : password = "" <;> by_cases hn : notes = "" <;>
    by_cases hu : username = "" <;>
    simp [uiCreate, create_credential, handleSavePayload, jsOrNull, hp, hn, hu]

/-! ## Search (`Dashboard.tsx` `filtered`)

The dashboard filters the loaded summaries client-side: if the trimmed
query is non-empty, keep the credentials whose lowercased `name` includes
the lowercased (untrimmed) query; then apply the filter pill; then sort
(the sort stage only permutes and is not modelled). -/

/-- The `Credential` summaries as the dashboard holds them (string ids, as
in the `Dashboard.tsx` interface). -/
structure UiCredential where
  id : String
  name : String
  username : Option String
  url : Option String
  updated_at : String
  deriving DecidableEq, Repr

/-- JS truthiness of `c.username` / `c.url`: present and non-empty. -/
def truthyOpt : Option String → Bool
  | none => false
  | some s => !(s == "")

/-- The filter pills of the dashboard. -/
inductive DashFilter
  | all
  | hasUser
  | hasUrl
  | noUser
  deriving DecidableEq, Repr

/-- The search stage of `filtered`: `if (search.trim()) \x7b list =
list.filter(c => c.name.toLowerCase().includes(search.toLowerCase())) \x7d`. -/
def searchStage (q : String) (l : List UiCredential) : List UiCredential :=
  if (trimChars q.toList).isEmpty then l
  else l.filter (fun c => occursIn (lowerChars q.toList) (lowerChars c.name.toList))

/-- The filter-pill stage of `filtered` (the `switch` statement). -/
def filterStage : DashFilter → List UiCredential → List UiCredential
  | .all, l => l
  | .hasUser, l => l.filter (fun c => truthyOpt c.username)
  | .hasUrl, l => l.filter (fun c => truthyOpt c.url)
  | .noUser, l => l.filter (fun c => !truthyOpt c.username)

/-- The dashboard's `filtered` list up to the final sort (which only
reorders). -/
def dashFiltered (q : String) (f : DashFilter) (creds : List UiCredential) :
    List UiCredential :=
  filterStage f (searchStage q creds)

/-- C6 counterexample: for the whitespace-only query `" "` the code skips
filtering (the trimmed query is empty) and returns a credential named
`"abc"`, although `"abc"` does not contain `" "` as a (case-insensitive)
substring — refuting "returns exactly the summaries whose name contains
the query". -/
theorem c6_counterexample_whitespace_query :
    dashFiltered " " .all [⟨"1", "abc", none, none, "t"⟩]
      = [⟨"1", "abc", none, none, "t"⟩] ∧
    occursIn (lowerChars " ".toList) (lowerChars "abc".toList) = false := by
  refine ⟨rfl, by decide⟩

/-- C6 amended: with the `all` filter pill, a credential is in the filtered
list iff it is in the loaded list and — whenever the trimmed query is
non-empty — its lowercased name contains the lowercased query; a
whitespace-only (or empty) query leaves the list unfiltered.  Matching uses
only the plaintext `name` of the summaries, which carry no ciphertext, so
no decryption is involved. -/
theorem c6_amended_search_membership (q : String) (creds : List UiCredential)
    (c : UiCredential) :
    c ∈ dashFiltered q .all creds ↔
      c ∈ creds ∧ ((trimChars q.toList).isEmpty = false →
        occursIn (lowerChars q.toList) (lowerChars c.name.toList) = true) := by
  by_cases h : (trimChars q.data).isEmpty <;>
    simp [dashFiltered, filterStage, searchStage, h, List.mem_filter]

/-- Witness for the amended C6 at concrete inputs. -/
theorem c6_amended_search_membership_witness :
    (⟨"1", "GitHub", none, none, "t"⟩ : UiCredential) ∈
      dashFiltered "hub" .all [⟨"1", "GitHub", none, none, "t"⟩] :=
  (c6_amended_search_membership "hub" [⟨"1", "GitHub", none, none, "t"⟩]
      ⟨"1", "GitHub", none, none, "t"⟩).mpr
    ⟨by decide, fun _ => by decide⟩

/-! ## The protected route (`App.tsx` `ProtectedRoute`)

Reads the `"session"` item of `localStorage` and guards with `if (!raw)`:
`!raw` is true both for an absent item (`null`) and for a present
empty-string item (the only falsy string), and in both cases the component
redirects to `"/"` without touching storage — `JSON.parse` never runs for
them.  Only a present non-empty item reaches `JSON.parse`; a parse failure
removes the item and redirects, a success renders the outlet with the
parsed session.  `JSON.parse` is an external collaborator, modelled as an
arbitrary function into `Option`. -/

/-- What `ProtectedRoute` renders, together with the `localStorage`
`"session"` item after the render. -/
inductive RouteOutcome (α : Type)
  | redirectHome (storage : Option String)
  | outlet (session : α) (storage : Option String)
  deriving DecidableEq, Repr

/-- Model of `ProtectedRoute` in `App.tsx`, with the falsy guard
`if (!raw)`: an absent item and a present empty-string item both redirect
with storage untouched; only a non-empty item is parsed, and only a failed
parse removes the item. -/
def protectedRoute {α : Type} (parseJson : String → Option α)
    (stored : Option String) : RouteOutcome α :=
  match stored with
  | none => .redirectHome none
  | some raw =>
    if raw = "" then .redirectHome (some raw)
    else
      match parseJson raw with
      | none => .redirectHome none
      | some s => .outlet s (some raw)

/-- C10 counterexample: the claim says every present item that does not
parse as JSON is removed from storage; but for the present empty-string
item (`""` is not valid JSON, as the concrete parse function records) the
source's falsy guard redirects before `JSON.parse` runs and the item stays
in storage. -/
theorem c10_counterexample_empty_item_not_removed :
    protectedRoute (fun s => if s = "42" then some 42 else none) (some "")
      = .redirectHome (some "") ∧
    (fun s => if s = "42" then some (42 : Nat) else none) "" = none ∧
    protectedRoute (fun s => if s = "42" then some 42 else none) (some "")
      ≠ .redirectHome none := by
  refine ⟨rfl, rfl, by decide⟩

/-- C10 amended: the dashboard outlet renders only when the stored item
exists, is non-empty and parses; an absent item — and likewise a present
empty-string item, which the falsy `if (!raw)` guard catches before
parsing — redirects to `"/"` with storage untouched; a present non-empty
item that fails to parse is removed from storage and redirects to `"/"`;
and any rendered session comes from a successful parse of the stored item,
so the dashboard never receives an unparsed or malformed session. -/
theorem c10_protected_route_gates_dashboard (α : Type)
    (parseJson : String → Option α) (stored : Option String) :
    (stored = none → protectedRoute parseJson stored = .redirectHome none) ∧
    (stored = some "" →
      protectedRoute parseJson stored = .redirectHome (some "")) ∧
    (∀ raw, stored = some raw → raw ≠ "" → parseJson raw = none →
      protectedRoute parseJson stored = .redirectHome none) ∧
    (∀ raw s, stored = some raw → raw ≠ "" → parseJson raw = some s →
      protectedRoute parseJson stored = .outlet s (some raw)) ∧
    (∀ s st, protectedRoute parseJson stored = .outlet s st →
      ∃ raw, stored = some raw ∧ raw ≠ "" ∧ parseJson raw = some s ∧
        st = some raw) := by
  refine ⟨?_, ?_, ?_, ?_, ?_⟩
  · rintro rfl; rfl
  · rintro rfl; rfl
  · rintro raw rfl hne hp
    simp [protectedRoute, hne, hp]
  · rintro raw s rfl hne hp
    simp [protectedRoute, hne, hp]
  · intro s st h
    cases stored with
    | none => simp [protectedRoute] at h
    | some raw =>
      by_cases hne : raw = ""
      · subst hne
        simp [protectedRoute] at h
      · cases hp : parseJson raw with
        | none => simp [protectedRoute, hne, hp] at h
        | some s' =>
          simp [protectedRoute, hne, hp] at h
          exact ⟨raw, rfl, hne, by rw [hp, h.1], h.2.symm⟩

/-- Witness for the amended C10 with a concrete parse function: a present
unparsable non-empty item redirects with the item removed, a parsable one
renders the outlet, and a present empty-string item redirects with the
item left in storage. -/
theorem c10_protected_route_gates_dashboard_witness :
    protectedRoute (fun s => if s = "42" then some 42 else none) (some "oops")
      = .redirectHome none ∧
    protectedRoute (fun s => if s = "42" then some 42 else none) (some "42")
      = .outlet 42 (some "42") ∧
    protectedRoute (fun s => if s = "42" then some 42 else none) (some "")
      = .redirectHome (some "") :=
  ⟨(c10_protected_route_gates_dashboard Nat
      (fun s => if s = "42" then some 42 else none) (some "oops")).2.2.1
      "oops" rfl (by decide) (by decide),
   (c10_protected_route_gates_dashboard Nat
      (fun s => if s = "42" then some 42 else none) (some "42")).2.2.2.1
      "42" 42 rfl (by decide) (by decide),
   (c10_protected_route_gates_dashboard Nat
      (fun s => if s = "42" then some 42 else none) (some "")).2.1 rfl⟩

end PasswordManager
